import Mathlib

/-!
Verification of the Hebrew-Wiktionary extraction pipeline (src/parse.py).

The program consumes the output of an external wikitext-parser library
(`wikitextparser`, abbreviated wtp).  The library itself is out of scope
(the spec treats it as an external collaborator), so its outputs are
modelled as data: a parsed fragment is a `WtpParsed` record holding the
node list, the templates, the wikilinks and the lists that the library
would report, and every place where the source re-parses a string is
threaded through an explicit parse oracle `parse : String → WtpParsed`.
A library-level failure while replacing one node (what the source's bare
`except:` clauses catch) is modelled by a `fails` flag on the node.

Python-specific semantics (truthiness of `""`/`None` under `or`, dict
insertion order with later-wins updates, `str.split(maxsplit=1)`,
`re.match` over an alternation of literal keys, `re.split` on
`\s*[,;]\s*`) are embedded by small explicit functions, each documented
at its definition.
-/

namespace HeWikt

/-- Python whitespace test used by `str.strip` / `str.split` (ASCII subset). -/
def pyIsSpace (c : Char) : Bool :=
  c = ' ' || c = '\t' || c = '\n' || c = '\r' || c = '\x0b' || c = '\x0c'

/-- Python `str.strip()`: drop leading and trailing whitespace. -/
def pyStrip (s : String) : String :=
  String.mk (((s.data.dropWhile pyIsSpace).reverse.dropWhile pyIsSpace).reverse)

/-- Python `a or b` on optional strings: `None` and `""` are falsy. -/
def pyOrS : Option String → Option String → Option String
  | some s, b => if s = "" then b else some s
  | none, b => b

/-- Python `x or None` for an optional string (empty collapses to `None`). -/
def emptyToNone (o : Option String) : Option String := pyOrS o none

/-- One template argument as reported by wtp: `name` is the given name for a
named argument and the positional index rendered as a string ("1", "2", ...)
for a positional one; `value` is the raw value text. -/
structure WtpArg where
  name : String
  value : String
deriving DecidableEq

/-- One template as reported by wtp (`Template.name`, `Template.arguments`). -/
structure WtpTemplate where
  name : String
  arguments : List WtpArg
deriving DecidableEq

/-- One wikilink as reported by wtp: `target` is `WikiLink.target`, `text` is
`WikiLink.text` (`none` when the link has no pipe, `some ""` when the display
part is present but empty), and `isImage` records whether the link contains
nested wikilinks (the source's `t.wikilinks` test for image links). -/
structure WtpWikiLink where
  target : String
  text : Option String
  isImage : Bool
deriving DecidableEq

/-- A node of a parsed wikitext fragment, at the granularity the Markup
Normalizer manipulates: `raw` is the node's raw wikitext (what `plain_text`
leaves in place when the corresponding replacement was skipped), `inner` /
`contents` is what the library would substitute, and `fails` abstracts a
library-level exception raised while replacing this node. -/
inductive WNode where
  | text (s : String)
  | bold (raw inner : String) (fails : Bool)
  | italic (raw inner : String) (fails : Bool)
  | wikilink (raw : String) (wl : WtpWikiLink) (fails : Bool)
  | tag (raw : String) (contents : Option String) (fails : Bool)
  | template (raw : String)
deriving DecidableEq

/-- One item of a wtp list: its text (`WikiList.items[i]`) and the raw strings
of its sublists (`WikiList.sublists(i)`, each taken with `.string`). -/
structure WtpItem where
  text : String
  sublists : List String
deriving DecidableEq

/-- One list as reported by wtp `get_lists`. -/
structure WtpList where
  items : List WtpItem
deriving DecidableEq

/-- The parse-result object of the wtp library, restricted to the API the
source consumes: the node list (for the Markup Normalizer's passes), all
templates (`.templates`), all wikilinks (`.wikilinks`), the default
`get_lists()` result and the `get_lists(r"\#:\*")` result. -/
structure WtpParsed where
  nodes : List WNode
  templates : List WtpTemplate
  wikilinks : List WtpWikiLink
  lists : List WtpList
  exLists : List WtpList

/-- The parse of a string containing no markup at all: one text node, no
templates, wikilinks or lists.  Instantiates the parse oracle at concrete
inputs whose re-parsed strings are all plain. -/
def plainParse (s : String) : WtpParsed :=
  { nodes := [WNode.text s], templates := [], wikilinks := [], lists := [],
    exLists := [] }

/-! ### The Markup Normalizer (`remove_markup`, src/parse.py lines 47-75) -/

/-- Bold pass: each non-recursive bold span is replaced by its inner text;
a library failure on one node is caught (`try ... except: continue`) and the
node is left in place. -/
def boldPass (ns : List WNode) : List WNode :=
  ns.map fun n => match n with
    | .bold raw inner fails => if fails then .bold raw inner fails else .text inner
    | n => n

/-- Italic pass, same defensive shape as the bold pass. -/
def italicPass (ns : List WNode) : List WNode :=
  ns.map fun n => match n with
    | .italic raw inner fails => if fails then .italic raw inner fails else .text inner
    | n => n

/-- The display text a wikilink is replaced by: `t.text or t.target`
(Python `or`: an absent or empty display part falls back to the target). -/
def wlDisplay (wl : WtpWikiLink) : String :=
  match wl.text with
  | some s => if s = "" then wl.target else s
  | none => wl.target

/-- Wikilink pass: an image link (one containing nested wikilinks) is deleted,
any other is replaced by `t.text or t.target`.  This pass is NOT wrapped in
`try/except` in the source, so a library failure on one node propagates. -/
def wikilinkPass : List WNode → Except Unit (List WNode)
  | [] => .ok []
  | .wikilink _ wl fails :: t =>
      if fails then .error ()
      else do
        let rest ← wikilinkPass t
        if wl.isImage then pure rest else pure (.text (wlDisplay wl) :: rest)
  | n :: t => do
      let rest ← wikilinkPass t
      pure (n :: rest)

/-- Tag pass: each tag is replaced by `not_none(t.contents)`; a failure
(including the `not_none` assertion on a contents-less tag) is caught and the
node is left in place. -/
def tagPass (ns : List WNode) : List WNode :=
  ns.map fun n => match n with
    | .tag raw contents fails =>
      if fails then n
      else match contents with
        | none => n
        | some c => .text c
    | n => n

/-- The final `plain_text(replace_wikilinks=False, replace_tags=False,
replace_bolds_and_italics=False, _mutate=True)` rendering: text is kept,
nodes whose replacement was skipped keep their raw markup, templates are
dropped. -/
def plainTextRender (ns : List WNode) : String :=
  ns.foldr (fun n acc =>
    (match n with
      | .text s => s
      | .bold raw _ _ => raw
      | .italic raw _ _ => raw
      | .wikilink raw _ _ => raw
      | .tag raw _ _ => raw
      | .template _ => "") ++ acc) ""

/-- The raw string of a parsed fragment (wtp `.string` after mutation). -/
def rawRender (ns : List WNode) : String :=
  ns.foldr (fun n acc =>
    (match n with
      | .text s => s
      | .bold raw _ _ => raw
      | .italic raw _ _ => raw
      | .wikilink raw _ _ => raw
      | .tag raw _ _ => raw
      | .template raw => raw) ++ acc) ""

/-- `remove_markup`: the four replacement passes in source order (bold,
italic, wikilink, tag) followed by the plain-text rendering and a strip.
The value is an `Except` because the wikilink pass can propagate a
library failure. -/
def remove_markup (ns : List WNode) : Except Unit String := do
  let ns1 := italicPass (boldPass ns)
  let ns2 ← wikilinkPass ns1
  pure (pyStrip (plainTextRender (tagPass ns2)))

/-! ### WikiLink and the antonym-style value parsers -/

/-- The emitted record for a wikilink (src/parse.py lines 147-154). -/
structure WikiLink where
  text : String
  link : String
deriving DecidableEq

/-- `WikiLink.from_wtp_wikilink`: `text=wl.text or wl.target, link=wl.target`. -/
def WikiLink.from_wtp_wikilink (wl : WtpWikiLink) : WikiLink :=
  { text := wlDisplay wl, link := wl.target }

/-- `parse_wikilinks(a)`: every wikilink of the parse of `a`, mapped. -/
def parse_wikilinks (parse : String → WtpParsed) (a : String) : List WikiLink :=
  ((parse a).wikilinks).map WikiLink.from_wtp_wikilink

/-- `parse_antonym(a)`: the wikilinks of `a`, or `[a]` when there are none
and `a` has non-whitespace content, or nothing. -/
def parse_antonym (parse : String → WtpParsed) (a : String) :
    List (WikiLink ⊕ String) :=
  let wls := parse_wikilinks parse a
  if wls.isEmpty && !(pyStrip a = "") then [Sum.inr a] else wls.map Sum.inl

/-! ### Canonicalization tables (src/parse.py lines 170-284), in source order -/

/-- `wiktionary_gender_to_english` (dict, keys unique, order as written). -/
def wiktionary_gender_to_english : List (String × String) :=
  [("זכר", "male"), ("נקבה", "female"), ("ז", "male"), ("נ", "female"),
   ("זכר רבוי", "male plural"), ("זכר רבים", "male plural"),
   ("זכר ונקבה", "male and female"), ("זכר ריבוי", "male plural"),
   ("זכר זוגי", "male dual"), ("זו\"נ", "male and female"),
   ("נקבה רבוי", "female plural"), ("ז'", "male"),
   ("נקבה ריבוי", "female plural"), ("זכר יחיד", "male"),
   ("ז\"ר", "male plural"), ("נ'", "female")]

/-- `wiktionary_pos_to_english` (dict, order as written; commented-out
entries of the source are omitted). -/
def wiktionary_pos_to_english : List (String × String) :=
  [("שם־עצם", "noun"), ("שם-עצם", "noun"), ("שם עצם", "noun"),
   ("צרף", "phrase"), ("תואר", "adjective"), ("שם־תואר", "adjective"),
   ("תואר הפועל", "adverb"), ("שם-תואר", "adjective"), ("שם תואר", "adjective"),
   ("שם פרטי", "proper noun"), ("צירוף שמני", "noun"),
   ("מילת קריאה", "interjection"), ("פועל", "verb"), ("שם־פעולה", "gerund"),
   ("תואר־הפועל", "adverb"), ("שם-פרטי", "proper noun"),
   ("מילת חיבור", "conjunction"), ("שם־פרטי", "proper noun"),
   ("מילת יחס", "preposition"), ("ביטוי", "expression"),
   ("מילת שאלה", "interrogative"), ("שם", "noun"),
   ("שם עצם (תואר)", "noun"), ("תחילית", "prefix"), ("שם־תאר", "adjective"),
   ("שם־עצם, שם־תואר", "noun"), ("תאר", "adjective"),
   ("שם־עצם מופשט", "noun")]

/-- `wiktionary_pronunciation_to_ipa` (dict, order as written; the regex is
the alternation of the keys in this order). -/
def wiktionary_pronunciation_to_ipa : List (String × String) :=
  [("׳", "ʔ"), ("'", "ʔ"), ("sh", "ʃ"), ("kh", "x"), ("ch", "tʃ"),
   ("j", "ʒ"), ("y", "j")]

/-- `wiktionary_form_tag` (dict, keys unique, order as written; the regex
`form_tag_regex` is the escaped alternation of the keys in this order). -/
def wiktionary_form_tag : List (String × String) :=
  [("ר'", "plural"), ("נ'", "female"), ("נ\"ר", "female plural"),
   ("כ'", "possessive"), ("נ\"י:", "female"), ("ר׳", "plural"),
   ("ס\"ר", "construct plural"), ("ר':", "plural"), ("נ\"ר:", "female plural"),
   ("כ':", "possessive"), ("נ':", "female"), ("ר\"נ:", "female plural"),
   ("ר\"ז:", "male plural"), ("ס'", "construct"), ("נ׳", "female"),
   ("נס'", "female construct"), ("נ״ר", "female plural"),
   ("<BR>ר'", "plural"), ("<BR>נ\"ר", "female plural"),
   ("<br>נ\"ר", "female plural"), ("זוגי", "dual"), ("רבים", "plural"),
   ("ז'", "male"), ("יחיד", "singular"), ("נ\"נ:", "female construct"),
   ("זוגי:", "dual"), ("ס״ר", "construct plural"), ("נ\"י", "female"),
   ("נסמך", "construct"), ("ס\"י:", "construct"), ("שלי:", "possessive"),
   ("שלו:", "possessive"), ("ס׳", "construct"), ("י'", "singular"),
   ("(נ'", "female"), ("ז\"ר", "male plural"), ("ס\"ר:", "construct plural"),
   ("יחידה:", "female"), ("ר", "plural"), ("ביידוע:", "definite")]

/-- Python `dict.get` on an association list with unique keys. -/
def pyGet (d : List (String × String)) (k : String) : Option String :=
  (d.find? (fun kv => kv.1 = k)).map (·.2)

/-- Python `k in dict`. -/
def pyContains (d : List (String × String)) (k : String) : Bool :=
  (d.find? (fun kv => kv.1 = k)).isSome

/-- Python `dict[k] = v`: update in place when the key exists (keeping its
position), append otherwise. -/
def pyUpsert : List (String × String) → String → String → List (String × String)
  | [], k, v => [(k, v)]
  | kv :: t, k, v => if kv.1 = k then (k, v) :: t else kv :: pyUpsert t k v

/-! ### The declension-form parser (`parse_form`, src/parse.py lines 286-298) -/

/-- `form_tag_regex.match(f)`: the regex is an alternation of the escaped
table keys, so a match at position 0 succeeds exactly when some key is a
prefix of `f`, and the matched group is the first such key in table order
(Python tries alternatives left to right). -/
def formTagMatch (f : String) : Option (String × String) :=
  wiktionary_form_tag.find? (fun kv => kv.1.data.isPrefixOf f.data)

/-- Python `f.split(maxsplit=1)[1]` as an optional value: skip leading
whitespace, skip the first token, skip the separating whitespace run; `none`
when no second element exists (whereupon the source's indexing raises). -/
def pySplitRest (f : String) : Option String :=
  let afterLead := f.data.dropWhile pyIsSpace
  let afterTok := afterLead.dropWhile (fun c => !pyIsSpace c)
  let rest := afterTok.dropWhile pyIsSpace
  if afterLead.isEmpty || rest.isEmpty then none else some (String.mk rest)

/-- `parse_form(f)`.  The branch structure mirrors the source: the space test
is `" " in f` (the single space character); on a regex match the matched
key's table value is paired with `f.split(maxsplit=1)[1]`, and the
`IndexError` when that second element does not exist is caught (the handler
only prints), after which control falls through to `return "unknown", f`;
the maqaf branch is an `elif` of the space test. -/
def parse_form (f : String) : String × String :=
  if f.data.contains ' ' then
    match formTagMatch f with
    | some kv =>
        match pySplitRest f with
        | some rest => (kv.2, rest)
        | none => ("unknown", f)
    | none => ("unknown", f)
  else if f.data.getLast? = some '־' then ("construct", String.mk f.data.dropLast)
  else ("unknown", f)

/-- `re.split(r"\s*[,;]\s*", s)`, step 1: cut at every comma or semicolon. -/
def splitDelimChars : List Char → List (List Char)
  | [] => [[]]
  | c :: t =>
    if c = ',' || c = ';' then [] :: splitDelimChars t
    else match splitDelimChars t with
      | p :: ps => (c :: p) :: ps
      | [] => [[c]]

/-- Drop trailing Python whitespace from a character list. -/
def dropTrailWs (p : List Char) : List Char :=
  (p.reverse.dropWhile pyIsSpace).reverse

/-- `re.split(r"\s*[,;]\s*", s)`, step 2 for the pieces after the first: the
whitespace adjacent to each delimiter is consumed by the match, so every
piece but the first loses its leading whitespace and every piece but the
last loses its trailing whitespace. -/
def stripTailPieces : List (List Char) → List (List Char)
  | [] => []
  | [p] => [p.dropWhile pyIsSpace]
  | p :: ps => dropTrailWs (p.dropWhile pyIsSpace) :: stripTailPieces ps

/-- `decl_delim_regex.split(s)`: a string with no delimiter is returned
untouched (leading/trailing whitespace kept). -/
def declSplit (s : String) : List String :=
  (match splitDelimChars s.data with
    | [] => []
    | [p] => [p]
    | p :: ps => dropTrailWs p :: stripTailPieces ps).map String.mk

/-! ### The Grammar Normalizer (`GrammarInfo`, src/parse.py lines 301-356) -/

structure GrammarInfo where
  pronunciation : Option String
  ktiv_male : Option String
  gender : Option String
  root : Option String
  part_of_speech : Option String
  morphology : Option String
  declensions : Option (List (String × String))
deriving DecidableEq

/-- The root extraction of `GrammarInfo.from_dict`: the ``שורש`` value is
re-parsed; a first template named ``שרש`` contributes its first argument
(indexing raises on an argument-less template — not caught), one named
``שרש3``/``שרש4``/``שרש5`` contributes the concatenation of its first N
argument values; any other leaves the root absent. -/
def rootOf (parse : String → WtpParsed) (d : List (String × String)) :
    Except Unit (Option String) :=
  match pyGet d "שורש" with
  | none => .ok none
  | some r =>
    match (parse r).templates with
    | [] => .ok none
    | t :: _ =>
      if t.name = "שרש" then
        match t.arguments with
        | [] => .error ()
        | a :: _ => .ok (some a.value)
      else if t.name = "שרש3" || t.name = "שרש4" || t.name = "שרש5" then
        let n : Nat := if t.name = "שרש3" then 3 else if t.name = "שרש4" then 4 else 5
        .ok (some (String.join ((t.arguments.take n).map (·.value))))
      else .ok none

/-- One step of `wiktionary_pronunciation_regex.sub`: at each position the
leftmost match wins and alternatives are tried in table order; keys are
non-empty, which the `find?` predicate records for termination. -/
def subAlt (tbl : List (String × String)) : List Char → List Char
  | [] => []
  | c :: t =>
    match h : tbl.find? (fun kv => !kv.1.data.isEmpty && kv.1.data.isPrefixOf (c :: t)) with
    | some kv => kv.2.data ++ subAlt tbl (List.drop kv.1.data.length (c :: t))
    | none => c :: subAlt tbl t
termination_by l => l.length
decreasing_by
  · have hp := List.find?_some h
    simp only [Bool.and_eq_true, Bool.not_eq_true'] at hp
    have hne : kv.1.data ≠ [] := by
      intro he
      rw [he] at hp
      simp [List.isEmpty] at hp
    have hlen : 0 < kv.1.data.length := List.length_pos.mpr hne
    simp only [List.length_drop, List.length_cons]
    omega
  · simp

/-- Replace every `'!'` by an apostrophe (`.replace("!", "'")`). -/
def bangToApos (s : String) : String :=
  String.mk (s.data.map (fun c => if c = '!' then '\'' else c))

/-- The pronunciation normalization of `GrammarInfo.from_dict`: re-parse the
``הגייה`` value; each top-level bold span becomes `"!"` + its inner text
(a failure is caught and leaves a bare `"!"`); the IPA substitution runs
over the resulting raw string; finally `"!"` becomes `"'"`. -/
def pronOf (parse : String → WtpParsed) (d : List (String × String)) :
    Option String :=
  match pyGet d "הגייה" with
  | none => none
  | some p =>
    let ns := (parse p).nodes.map fun n => match n with
      | .bold _ inner fails => WNode.text (if fails then "!" else "!" ++ inner)
      | n => n
    some (bangToApos (String.mk
      (subAlt wiktionary_pronunciation_to_ipa (rawRender ns).data)))

/-- The declensions of `GrammarInfo.from_dict`: the walrus test
`if decls := d.get("נטיות")` skips an absent or empty value; otherwise the
value is split on the delimiter regex and each piece goes through
`parse_form`. -/
def declensionsOf (d : List (String × String)) : Option (List (String × String)) :=
  match pyGet d "נטיות" with
  | some s => if s = "" then none else some ((declSplit s).map parse_form)
  | none => none

/-- `GrammarInfo.from_dict` (src/parse.py lines 311-356). -/
def GrammarInfo.from_dict (parse : String → WtpParsed)
    (d : List (String × String)) : Except Unit GrammarInfo := do
  let root ← rootOf parse d
  pure { pronunciation := emptyToNone (pronOf parse d),
         ktiv_male := emptyToNone (pyGet d "כתיב מלא"),
         gender := (pyGet d "מין").bind (pyGet wiktionary_gender_to_english),
         root,
         part_of_speech := (pyGet d "חלק דיבר").bind (pyGet wiktionary_pos_to_english),
         morphology := emptyToNone (pyGet d "דרך תצורה"),
         declensions := declensionsOf d }

/-! ### Examples and Definitions (src/parse.py lines 78-131) -/

structure Example where
  text : String
  kind : String
  source : List String
deriving DecidableEq

/-- `Example.from_str(s)`: with a template, text is the markup-stripped first
argument value (or `""` with no arguments), kind the template name, source
the remaining argument values; otherwise a plain-text example. -/
def Example.from_str (parse : String → WtpParsed) (s : String) :
    Except Unit Example := do
  match (parse s).templates with
  | t :: _ =>
    let txt ← match t.arguments with
      | [] => pure ""
      | a :: _ => remove_markup (parse a.value).nodes
    pure { text := txt, kind := t.name,
           source := (t.arguments.drop 1).map (·.value) }
  | [] =>
    let txt ← remove_markup (parse s).nodes
    pure { text := txt, kind := "plain-text", source := [] }

structure Definition where
  definition : String
  examples : List Example
  register : Option String
  context : Option String
  time_period : Option String
  is_lacking : Bool
  is_borrowed : Bool
deriving DecidableEq

/-- The template dict of a definition body: `{t.name: "|".join(values)}`,
later templates overwriting earlier ones with the same name. -/
def temsOf (parse : String → WtpParsed) (definition : String) :
    List (String × String) :=
  ((parse definition).templates).foldl
    (fun d t => pyUpsert d t.name (String.intercalate "|" (t.arguments.map (·.value)))) []

/-- `Definition.from_definition_and_str` (src/parse.py lines 110-131): the
definition body is markup-stripped; the examples come from the first
`\#:\*` list of the examples string; register, context, time_period and the
two flags are read off the template dict with Python `or` chains. -/
def Definition.from_definition_and_str (parse : String → WtpParsed)
    (definition exs : String) : Except Unit Definition := do
  let tems := temsOf parse definition
  let defText ← remove_markup (parse definition).nodes
  let examples ← match (parse exs).exLists with
    | [] => pure ([] : List Example)
    | l0 :: _ => l0.items.mapM (fun it => Example.from_str parse it.text)
  pure { definition := defText, examples,
         register := pyOrS (pyGet tems "משלב") (pyOrS (pyGet tems "משלב/ר\"ת")
           (if pyContains tems "סלנג" then some "סלנג" else none)),
         context := pyGet tems "הקשר",
         is_lacking := pyContains tems "פירוש לקוי",
         is_borrowed := pyContains tems "בהשאלה",
         time_period := pyOrS (pyGet tems "רובד") (pyOrS
           (if pyContains tems "חזל" then some "חזל" else none)
           (if pyContains tems "מקרא" then some "מקרא" else none)) }

/-! ### Sections and the List Extractor (src/parse.py lines 22-44, 134-144) -/

/-- A section of the tree the Section Tree Builder produces: its level, its
stripped title, the library's parse of its own top-level body, and its
direct subsections keyed by title (kept as the association list in document
order; the Python dict gives later duplicates the win, which `subLookup`
reproduces). -/
inductive Sec where
  | mk (level : Nat) (title : String) (top : WtpParsed)
       (subsections : List (String × Sec))

def Sec.level : Sec → Nat
  | .mk l _ _ _ => l

def Sec.title : Sec → String
  | .mk _ t _ _ => t

def Sec.top : Sec → WtpParsed
  | .mk _ _ p _ => p

def Sec.subsections : Sec → List (String × Sec)
  | .mk _ _ _ s => s

/-- Lookup in the subsections dict: on duplicate titles the later one wins. -/
def Sec.subLookup (sec : Sec) (t : String) : Option Sec :=
  ((sec.subsections.filter (fun p => p.1 = t)).getLast?).map (·.2)

/-- `get_list_from_subsection(section, titles)`: the first title present
selects the subsection; its top-level lists' items are concatenated; absent
when no title is present or the subsection has no list. -/
def get_list_from_subsection (sec : Sec) (titles : List String) :
    Option (List String) :=
  match titles.findSome? (fun t => sec.subLookup t) with
  | none => none
  | some sub =>
    match sub.top.lists with
    | [] => none
    | ls => some ((ls.map (fun l => l.items.map (·.text))).flatten)

/-! ### The Entry Assembler (src/parse.py lines 359-475) -/

structure Entry where
  title : String
  grammatical_info : Option GrammarInfo
  definitions : List Definition
  expressions : List WikiLink
  derivatives : List WikiLink
  synonyms : List (WikiLink ⊕ String)
  antonyms : List (WikiLink ⊕ String)
  translations : List (String × List String)
  see_also : List WikiLink
  external_links : List (String × String)
  etymology : List String
  extra_info : Option String
deriving DecidableEq

/-- The grammatical-info step: the first top-level template named
``ניתוח דקדוקי``; its arguments AFTER THE FIRST (`tem.arguments[1:]`,
whether named or positional) build the dict fed to the Grammar Normalizer,
stripping names and values. -/
def gInfoOf (parse : String → WtpParsed) (sec : Sec) :
    Except Unit (Option GrammarInfo) :=
  match sec.top.templates.find? (fun t => t.name = "ניתוח דקדוקי") with
  | none => .ok none
  | some t =>
    let info := (t.arguments.drop 1).foldl
      (fun d a => pyUpsert d (pyStrip a.name) (pyStrip a.value)) []
    (GrammarInfo.from_dict parse info).map some

/-- `defaultdict(list)` append: an existing key's list grows in place, a new
key is appended at the end (Python dict order is first-insertion order). -/
def transAdd : List (String × List String) → String → String →
    List (String × List String)
  | [], k, v => [(k, [v])]
  | (k1, vs) :: t, k, v =>
    if k1 = k then (k1, vs ++ [v]) :: t else (k1, vs) :: transAdd t k v

/-- One translation template's contribution: only templates with at least
two arguments (`len(t.arguments) >= 2`) contribute. -/
def transStep (d : List (String × List String)) (t : WtpTemplate) :
    List (String × List String) :=
  match t.arguments with
  | a0 :: a1 :: _ => transAdd d a0.value a1.value
  | _ => d

/-- The translations step: under the ``תרגום`` subsection, every template
named ``ת`` with at least two arguments appends its second argument value to
the list keyed by its first argument value. -/
def translationsOf (sec : Sec) : List (String × List String) :=
  match sec.subLookup "תרגום" with
  | none => []
  | some sub =>
    (sub.top.templates.filter (fun t => t.name = "ת")).foldl transStep []

/-- The external-links step: under ``קישורים חיצוניים``, every argument of
every ``מיזמים`` template is recorded, later occurrences overwriting. -/
def externalLinksOf (sec : Sec) : List (String × String) :=
  match sec.subLookup "קישורים חיצוניים" with
  | none => []
  | some sub =>
    (sub.top.templates.filter (fun t => t.name = "מיזמים")).foldl
      (fun d t => t.arguments.foldl (fun d1 a => pyUpsert d1 a.name a.value) d) []

/-- The definitions step: the first top-level list of the section body; item
`i`'s examples string is the raw string of its first sublist, or `""`. -/
def definitionsOf (parse : String → WtpParsed) (sec : Sec) :
    Except Unit (List Definition) :=
  match sec.top.lists with
  | [] => .ok []
  | l0 :: _ => l0.items.mapM (fun it =>
      Definition.from_definition_and_str parse it.text (it.sublists.head?.getD ""))

/-- A relation list mapped through `parse_wikilinks` and flattened. -/
def wikilinkListOf (parse : String → WtpParsed) (sec : Sec)
    (titles : List String) : List WikiLink :=
  (((get_list_from_subsection sec titles).getD []).map (parse_wikilinks parse)).flatten

/-- A relation list mapped through `parse_antonym` and flattened. -/
def antonymListOf (parse : String → WtpParsed) (sec : Sec)
    (titles : List String) : List (WikiLink ⊕ String) :=
  (((get_list_from_subsection sec titles).getD []).map (parse_antonym parse)).flatten

/-- The etymology step: each item of the ``גיזרון``/``גזרון`` list is
markup-stripped (so a library failure propagates). -/
def etymologyOf (parse : String → WtpParsed) (sec : Sec) :
    Except Unit (List String) :=
  ((get_list_from_subsection sec ["גיזרון", "גזרון"]).getD []).mapM
    (fun s => remove_markup (parse s).nodes)

/-- The pure assembly of the Entry record out of the section and the three
effectful results.  The source's dead double binding
`synonyms = antonyms = ...` (src/parse.py line 439) immediately followed by
the antonyms reassignment (line 447) is kept as a shadowed binding. -/
def entryAssemble (parse : String → WtpParsed) (sec : Sec)
    (gInfo : Option GrammarInfo) (definitions : List Definition)
    (etymology : List String) : Entry :=
  let synonyms := antonymListOf parse sec ["מילים נרדפות"]
  let antonyms := synonyms
  let antonyms := antonymListOf parse sec ["ניגודים", "הפכים"]
  { title := sec.title, grammatical_info := gInfo, definitions,
    expressions := wikilinkListOf parse sec ["צירופים"],
    derivatives := wikilinkListOf parse sec ["נגזרות"],
    synonyms, antonyms,
    translations := translationsOf sec,
    see_also := wikilinkListOf parse sec ["ראו גם"],
    external_links := externalLinksOf sec,
    etymology, extra_info := none }

/-- `Entry.from_section` (src/parse.py lines 374-475).  The level-2 assertion
fails as an error; the grammar, definitions and etymology steps can each
propagate a failure (in source order), everything else is pure. -/
def Entry.from_section (parse : String → WtpParsed) (sec : Sec) :
    Except Unit Entry := do
  if sec.level = 2 then
    let gInfo ← gInfoOf parse sec
    let definitions ← definitionsOf parse sec
    let etymology ← etymologyOf parse sec
    pure (entryAssemble parse sec gInfo definitions etymology)
  else .error ()

/-! ### The Page Assembler (src/parse.py lines 486-509) -/

structure Page where
  pid : Int
  revision_id : Int
  sha1 : String
  entries : List Entry
  title : String
deriving DecidableEq

/-- The numeric value of a non-empty all-digit character list. -/
def digitsVal : List Char → Option Nat
  | [] => none
  | ds =>
    if ds.all (fun c => 48 ≤ c.toNat && c.toNat ≤ 57) then
      some (ds.foldl (fun n c => n * 10 + (c.toNat - 48)) 0)
    else none

/-- Python `int(s)` on a decimal string: surrounding whitespace and one sign
allowed, anything else raises `ValueError`. -/
def pyInt (s : String) : Except Unit Int :=
  match (pyStrip s).data with
  | '-' :: ds =>
    match digitsVal ds with
    | some n => .ok (-(n : Int))
    | none => .error ()
  | '+' :: ds =>
    match digitsVal ds with
    | some n => .ok (n : Int)
    | none => .error ()
  | ds =>
    match digitsVal ds with
    | some n => .ok (n : Int)
    | none => .error ()

/-- The `<revision>` element's consumed children (absent models a missing
child, on which `not_none` raises). -/
structure XmlRev where
  rid : Option String
  sha1 : Option String
  text : Option String

/-- The `<page>` element's consumed children. -/
structure XmlPage where
  title : Option String
  pid : Option String
  revision : Option XmlRev

/-- `Page.from_xml` (src/parse.py lines 494-509): the revision text is
parsed and its level-2 sections each build an Entry; `secsOf` is the
library-and-Section-Tree-Builder composite taking the text to the level-2
Section values.  Any missing child, malformed integer or entry failure
propagates (the caller `try_parse_page` then drops the page). -/
def Page.from_xml (secsOf : String → List Sec) (parse : String → WtpParsed)
    (xml : XmlPage) : Except Unit Page := do
  let rev ← match xml.revision with
    | some r => pure r
    | none => Except.error ()
  let text ← match rev.text with
    | some t => pure t
    | none => Except.error ()
  let secs := secsOf text
  let title ← match xml.title with
    | some t => pure t
    | none => Except.error ()
  let pidS ← match xml.pid with
    | some p => pure p
    | none => Except.error ()
  let pid ← pyInt pidS
  let ridS ← match rev.rid with
    | some r => pure r
    | none => Except.error ()
  let rid ← pyInt ridS
  let sha1 ← match rev.sha1 with
    | some s => pure s
    | none => Except.error ()
  let entries ← secs.mapM (Entry.from_section parse)
  pure { pid, revision_id := rid, sha1, entries, title }

/-! ### Definitions used by the claim statements -/

/-- The canonical declension-tag set of the spec (section 8). -/
def canonicalTagList : List String :=
  ["plural", "female", "female plural", "male plural", "construct",
   "construct plural", "dual", "singular", "possessive", "definite",
   "female construct", "unknown"]

/-- The actual tag range of `parse_form`: the claimed canonical set plus
"male", the value of the form-tag table's row ``ז'`` (src/parse.py line
263), which the claimed set omits. -/
def extendedTagList : List String := "male" :: canonicalTagList

/-- Whether a node is not a wikilink whose replacement fails (the nodes on
which the Markup Normalizer's unguarded pass cannot raise). -/
def noFailWl : WNode → Bool
  | .wikilink _ _ true => false
  | _ => true

/-- The first whitespace-delimited token of a string (the claim's "leading
token"). -/
def specLeadingToken (f : String) : String :=
  String.mk ((f.data.dropWhile pyIsSpace).takeWhile (fun c => !pyIsSpace c))

/-- The claim's reading of `parse_form`, written from the spec's words
(section 4.4): if `f` contains whitespace and its leading token matches the
form-tag table, emit the canonical tag with the remaining token; else if `f`
ends in the maqaf, emit construct; else unknown.  Used only to compare the
spec's statement with the source's `parse_form`. -/
def specParseForm (f : String) : String × String :=
  match (if f.data.any pyIsSpace then
          pyGet wiktionary_form_tag (specLeadingToken f) else none) with
  | some tag => (tag, (pySplitRest f).getD "")
  | none =>
    if f.data.getLast? = some '־' then ("construct", String.mk f.data.dropLast)
    else ("unknown", f)

/-- The page text of the spec's end-to-end scenario 3 (the braces of the
template syntax are written with escapes). -/
def pageTextC1 : String :=
  "== שלום ==\n\x7b\x7bניתוח דקדוקי|מין=זכר|חלק דיבר=שם עצם\x7d\x7d\n# ברכה."

/-- The level-2 Section the library and the Section Tree Builder produce for
`pageTextC1`: title ``שלום``, one top-level template named ``ניתוח דקדוקי``
whose arguments are the two named ones in source order, one top-level `#`
list whose single item is ``ברכה.`` preceded by the blank wtp keeps after
the list marker, and no subsections. -/
def secC1 : Sec :=
  .mk 2 "שלום"
    { nodes := [WNode.text pageTextC1],
      templates := [{ name := "ניתוח דקדוקי",
                      arguments := [{ name := "מין", value := "זכר" },
                                    { name := "חלק דיבר", value := "שם עצם" }] }],
      wikilinks := [],
      lists := [{ items := [{ text := " ברכה.", sublists := [] }] }],
      exLists := [] }
    []

/-- The sectioning oracle for the C1 page: `pageTextC1` has exactly the one
level-2 section `secC1`. -/
def secsOfC1 : String → List Sec :=
  fun s => if s = pageTextC1 then [secC1] else []

/-- A well-formed page element whose revision text is `pageTextC1`. -/
def xmlC1 : XmlPage :=
  { title := some "שלום", pid := some "7",
    revision := some { rid := some "11", sha1 := some "da39a3ee", text := some pageTextC1 } }

/-- The GrammarInfo the pipeline computes for the C1 page: the template's
first argument ``מין=זכר`` is dropped by `arguments[1:]`, so only the
part of speech survives. -/
def giC1 : GrammarInfo :=
  { pronunciation := none, ktiv_male := none, gender := none, root := none,
    part_of_speech := some "noun", morphology := none, declensions := none }

/-- The single Definition of the C1 page. -/
def defC1 : Definition :=
  { definition := "ברכה.", examples := [], register := none, context := none,
    time_period := none, is_lacking := false, is_borrowed := false }

/-- The single Entry of the C1 page. -/
def entryC1 : Entry :=
  { title := "שלום", grammatical_info := some giC1, definitions := [defC1],
    expressions := [], derivatives := [], synonyms := [], antonyms := [],
    translations := [], see_also := [], external_links := [], etymology := [],
    extra_info := none }

/-- The Page the Page Assembler produces for `xmlC1`. -/
def pageC1 : Page :=
  { pid := 7, revision_id := 11, sha1 := "da39a3ee", entries := [entryC1],
    title := "שלום" }

/-- A level-2 section whose grammar template carries a declensions argument
(first argument the headword, dropped by `arguments[1:]`). -/
def secC2 : Sec :=
  .mk 2 "ספר"
    { nodes := [],
      templates := [{ name := "ניתוח דקדוקי",
                      arguments := [{ name := "1", value := "ספר" },
                                    { name := "נטיות", value := "ר' ספרים, נ' ספרה" }] }],
      wikilinks := [], lists := [], exLists := [] }
    []

/-- The GrammarInfo computed for `secC2`. -/
def giC2 : GrammarInfo :=
  { pronunciation := none, ktiv_male := none, gender := none, root := none,
    part_of_speech := none, morphology := none,
    declensions := some [("plural", "ספרים"), ("female", "ספרה")] }

/-- A level-2 section whose grammar template's declensions field starts with
the table key ``ז'`` (rendered male), a tag outside the claimed canonical
set. -/
def secC2x : Sec :=
  .mk 2 "דוב"
    { nodes := [],
      templates := [{ name := "ניתוח דקדוקי",
                      arguments := [{ name := "1", value := "דוב" },
                                    { name := "נטיות", value := "ז' דובים" }] }],
      wikilinks := [], lists := [], exLists := [] }
    []

/-- The GrammarInfo computed for `secC2x`. -/
def giC2x : GrammarInfo :=
  { pronunciation := none, ktiv_male := none, gender := none, root := none,
    part_of_speech := none, morphology := none,
    declensions := some [("male", "דובים")] }

/-- The Entry computed for `secC2x`. -/
def entryC2x : Entry :=
  { title := "דוב", grammatical_info := some giC2x, definitions := [],
    expressions := [], derivatives := [], synonyms := [], antonyms := [],
    translations := [], see_also := [], external_links := [], etymology := [],
    extra_info := none }

/-- The Entry computed for `secC2`. -/
def entryC2 : Entry :=
  { title := "ספר", grammatical_info := some giC2, definitions := [],
    expressions := [], derivatives := [], synonyms := [], antonyms := [],
    translations := [], see_also := [], external_links := [], etymology := [],
    extra_info := none }

/-- A level-2 section with a ``תרגום`` subsection holding the three
translation templates of the spec's scenario 4. -/
def secC6 : Sec :=
  .mk 2 "שלום"
    { nodes := [], templates := [], wikilinks := [], lists := [], exLists := [] }
    [("תרגום",
      .mk 3 "תרגום"
        { nodes := [],
          templates := [{ name := "ת", arguments := [{ name := "1", value := "en" },
                                                     { name := "2", value := "hello" }] },
                        { name := "ת", arguments := [{ name := "1", value := "en" },
                                                     { name := "2", value := "peace" }] },
                        { name := "ת", arguments := [{ name := "1", value := "fr" },
                                                     { name := "2", value := "bonjour" }] }],
          wikilinks := [], lists := [], exLists := [] }
        [])]

/-- The Entry computed for `secC6`. -/
def entryC6 : Entry :=
  { title := "שלום", grammatical_info := none, definitions := [],
    expressions := [], derivatives := [], synonyms := [], antonyms := [],
    translations := [("en", ["hello", "peace"]), ("fr", ["bonjour"])],
    see_also := [], external_links := [], etymology := [], extra_info := none }

/-- A level-2 section with distinct synonym (``מילים נרדפות``) and antonym
(``ניגודים``) subsections, to observe that neither list leaks into the
other. -/
def secC7 : Sec :=
  .mk 2 "אהבה"
    { nodes := [], templates := [], wikilinks := [], lists := [], exLists := [] }
    [("מילים נרדפות",
      .mk 3 "מילים נרדפות"
        { nodes := [], templates := [], wikilinks := [],
          lists := [{ items := [{ text := "חיבה", sublists := [] }] }],
          exLists := [] }
        []),
     ("ניגודים",
      .mk 3 "ניגודים"
        { nodes := [], templates := [], wikilinks := [],
          lists := [{ items := [{ text := "שנאה", sublists := [] }] }],
          exLists := [] }
        [])]

/-- The Entry computed for `secC7`. -/
def entryC7 : Entry :=
  { title := "אהבה", grammatical_info := none, definitions := [],
    expressions := [], derivatives := [], synonyms := [Sum.inr "חיבה"],
    antonyms := [Sum.inr "שנאה"], translations := [], see_also := [],
    external_links := [], etymology := [], extra_info := none }

end HeWikt

deriving instance DecidableEq for Except

namespace HeWikt

/-! ## Helper lemmas -/

lemma except_map_ok {α β : Type} (f : α → β) (x : Except Unit α) (b : β)
    (h : x.map f = .ok b) : ∃ a, x = .ok a ∧ b = f a := by
  cases x with
  | error e => simp [Except.map] at h
  | ok a => exact ⟨a, rfl, by simpa [Except.map] using h.symm⟩

/-- Inversion of a successful `Entry.from_section`: the section is level 2,
the three effectful steps succeeded, and the entry is their assembly. -/
lemma from_section_ok {parse : String → WtpParsed} {sec : Sec} {e : Entry}
    (h : Entry.from_section parse sec = .ok e) :
    sec.level = 2 ∧ ∃ g d ety, gInfoOf parse sec = .ok g ∧
      definitionsOf parse sec = .ok d ∧ etymologyOf parse sec = .ok ety ∧
      e = entryAssemble parse sec g d ety := by
  by_cases hl : sec.level = 2
  · refine ⟨hl, ?_⟩
    rw [Entry.from_section, if_pos hl] at h
    cases hg : gInfoOf parse sec with
    | error u => rw [hg] at h; simp [Bind.bind, Except.bind] at h
    | ok g =>
      rw [hg] at h
      cases hd : definitionsOf parse sec with
      | error u => rw [hd] at h; simp [Bind.bind, Except.bind] at h
      | ok d =>
        rw [hd] at h
        cases he2 : etymologyOf parse sec with
        | error u => rw [he2] at h; simp [Bind.bind, Except.bind] at h
        | ok ety =>
          rw [he2] at h
          simp only [Bind.bind, Except.bind, Pure.pure, Except.pure,
            Except.ok.injEq] at h
          exact ⟨g, d, ety, rfl, rfl, rfl, h.symm⟩
  · rw [Entry.from_section, if_neg hl] at h
    simp at h

/-- A present grammatical_info comes from a successful `from_dict` run. -/
lemma gInfoOf_ok_some {parse : String → WtpParsed} {sec : Sec} {gi : GrammarInfo}
    (h : gInfoOf parse sec = .ok (some gi)) :
    ∃ d, GrammarInfo.from_dict parse d = .ok gi := by
  unfold gInfoOf at h
  cases hf : sec.top.templates.find? (fun t => t.name = "ניתוח דקדוקי") with
  | none => rw [hf] at h; simp at h
  | some t =>
    rw [hf] at h
    obtain ⟨a, ha, hb⟩ := except_map_ok some _ _ h
    obtain rfl : gi = a := by simpa using hb
    exact ⟨_, ha⟩

/-- The declensions field of a successful `from_dict` run. -/
lemma from_dict_declensions {parse : String → WtpParsed}
    {d : List (String × String)} {gi : GrammarInfo}
    (h : GrammarInfo.from_dict parse d = .ok gi) :
    gi.declensions = declensionsOf d := by
  unfold GrammarInfo.from_dict at h
  cases hr : rootOf parse d with
  | error u => rw [hr] at h; simp [Bind.bind, Except.bind] at h
  | ok r =>
    rw [hr] at h
    simp only [Bind.bind, Except.bind, Pure.pure, Except.pure,
      Except.ok.injEq] at h
    rw [← h]

/-- Every tag `parse_form` emits is a table value, `construct` or `unknown`,
all of which lie in the extended tag set. -/
lemma parse_form_tag_mem (f : String) : (parse_form f).1 ∈ extendedTagList := by
  unfold parse_form
  split
  · cases hm : formTagMatch f with
    | none => simp [extendedTagList, canonicalTagList]
    | some kv =>
      cases hr : pySplitRest f with
      | none => simp [extendedTagList, canonicalTagList]
      | some rest =>
        simp only
        have hmem : kv ∈ wiktionary_form_tag := List.mem_of_find?_eq_some hm
        have hall : ∀ x ∈ wiktionary_form_tag, x.2 ∈ extendedTagList := by decide
        exact hall kv hmem
  · split
    · simp [extendedTagList, canonicalTagList]
    · simp [extendedTagList, canonicalTagList]

/-- Every tag in a computed declensions list is in the extended set. -/
lemma declensionsOf_tags {d : List (String × String)}
    {ds : List (String × String)} (h : declensionsOf d = some ds) :
    ∀ tf ∈ ds, tf.1 ∈ extendedTagList := by
  cases hg : pyGet d "נטיות" with
  | none =>
    rw [show declensionsOf d = none by unfold declensionsOf; rw [hg]] at h
    exact absurd h (by simp)
  | some s =>
    by_cases hs : s = ""
    · rw [show declensionsOf d = none by
        unfold declensionsOf; rw [hg]; simp [hs]] at h
      exact absurd h (by simp)
    · rw [show declensionsOf d = some ((declSplit s).map parse_form) by
        unfold declensionsOf; rw [hg]; simp [hs]] at h
      obtain rfl : (declSplit s).map parse_form = ds := Option.some.inj h
      intro tf htf
      obtain ⟨p, hp, rfl⟩ := List.mem_map.mp htf
      exact parse_form_tag_mem p

/-- The bold pass cannot create a failing wikilink node. -/
lemma noFailWl_boldPass {ns : List WNode} (h : ns.all noFailWl = true) :
    (boldPass ns).all noFailWl = true := by
  rw [boldPass, List.all_map]
  refine List.all_eq_true.mpr ?_
  intro n hn
  have hn2 := List.all_eq_true.mp h n hn
  cases n with
  | bold raw inner fails =>
    simp only [Function.comp_apply]
    split <;> rfl
  | text s => exact hn2
  | italic raw inner fails => exact hn2
  | wikilink raw wl fails => exact hn2
  | tag raw contents fails => exact hn2
  | template raw => exact hn2

/-- The italic pass cannot create a failing wikilink node. -/
lemma noFailWl_italicPass {ns : List WNode} (h : ns.all noFailWl = true) :
    (italicPass ns).all noFailWl = true := by
  rw [italicPass, List.all_map]
  refine List.all_eq_true.mpr ?_
  intro n hn
  have hn2 := List.all_eq_true.mp h n hn
  cases n with
  | italic raw inner fails =>
    simp only [Function.comp_apply]
    split <;> rfl
  | text s => exact hn2
  | bold raw inner fails => exact hn2
  | wikilink raw wl fails => exact hn2
  | tag raw contents fails => exact hn2
  | template raw => exact hn2

/-- On a node list without failing wikilinks the wikilink pass succeeds. -/
lemma wikilinkPass_ok {ns : List WNode} (h : ns.all noFailWl = true) :
    ∃ ms, wikilinkPass ns = Except.ok ms := by
  induction ns with
  | nil => exact ⟨[], rfl⟩
  | cons n t ih =>
    rw [List.all_cons, Bool.and_eq_true] at h
    obtain ⟨ms, hms⟩ := ih h.2
    cases n with
    | wikilink raw wl fails =>
      cases fails with
      | true => simp [noFailWl] at h
      | false =>
        refine ⟨if wl.isImage then ms else .text (wlDisplay wl) :: ms, ?_⟩
        have hstep : wikilinkPass (WNode.wikilink raw wl false :: t) =
            Except.bind (wikilinkPass t)
              (fun rest => if wl.isImage then Except.ok rest
                else Except.ok (WNode.text (wlDisplay wl) :: rest)) := rfl
        rw [hstep, hms]
        show (if wl.isImage = true then Except.ok ms
          else Except.ok (WNode.text (wlDisplay wl) :: ms)) = _
        split <;> rfl
    | text s =>
      refine ⟨.text s :: ms, ?_⟩
      have hstep : wikilinkPass (WNode.text s :: t) =
          Except.bind (wikilinkPass t)
            (fun rest => Except.ok (WNode.text s :: rest)) := rfl
      rw [hstep, hms]
      rfl
    | bold raw inner fails =>
      refine ⟨.bold raw inner fails :: ms, ?_⟩
      have hstep : wikilinkPass (WNode.bold raw inner fails :: t) =
          Except.bind (wikilinkPass t)
            (fun rest => Except.ok (WNode.bold raw inner fails :: rest)) := rfl
      rw [hstep, hms]
      rfl
    | italic raw inner fails =>
      refine ⟨.italic raw inner fails :: ms, ?_⟩
      have hstep : wikilinkPass (WNode.italic raw inner fails :: t) =
          Except.bind (wikilinkPass t)
            (fun rest => Except.ok (WNode.italic raw inner fails :: rest)) := rfl
      rw [hstep, hms]
      rfl
    | tag raw contents fails =>
      refine ⟨.tag raw contents fails :: ms, ?_⟩
      have hstep : wikilinkPass (WNode.tag raw contents fails :: t) =
          Except.bind (wikilinkPass t)
            (fun rest => Except.ok (WNode.tag raw contents fails :: rest)) := rfl
      rw [hstep, hms]
      rfl
    | template raw =>
      refine ⟨.template raw :: ms, ?_⟩
      have hstep : wikilinkPass (WNode.template raw :: t) =
          Except.bind (wikilinkPass t)
            (fun rest => Except.ok (WNode.template raw :: rest)) := rfl
      rw [hstep, hms]
      rfl

/-- `transAdd` keeps every value list non-empty. -/
lemma transAdd_nonempty (d : List (String × List String)) (k v : String)
    (h : ∀ kv ∈ d, kv.2 ≠ []) : ∀ kv ∈ transAdd d k v, kv.2 ≠ [] := by
  induction d with
  | nil =>
    intro kv hkv
    simp only [transAdd, List.mem_singleton] at hkv
    subst hkv
    simp
  | cons p t ih =>
    obtain ⟨k1, vs⟩ := p
    intro kv hkv
    rw [transAdd] at hkv
    by_cases hk : k1 = k
    · rw [if_pos hk] at hkv
      rcases List.mem_cons.mp hkv with hkv | hkv
      · subst hkv; simp
      · exact h kv (List.mem_cons_of_mem _ hkv)
    · rw [if_neg hk] at hkv
      rcases List.mem_cons.mp hkv with hkv | hkv
      · subst hkv; exact h _ (List.mem_cons_self _ _)
      · exact ih (fun x hx => h x (List.mem_cons_of_mem _ hx)) kv hkv

/-- Folding translation templates keeps every value list non-empty. -/
lemma transFold_nonempty (ts : List WtpTemplate)
    (d : List (String × List String)) (h : ∀ kv ∈ d, kv.2 ≠ []) :
    ∀ kv ∈ ts.foldl transStep d, kv.2 ≠ [] := by
  induction ts generalizing d with
  | nil => simpa using h
  | cons t ts ih =>
    rw [List.foldl_cons]
    refine ih (transStep d t) ?_
    unfold transStep
    cases t.arguments with
    | nil => exact h
    | cons a0 rest =>
      cases rest with
      | nil => exact h
      | cons a1 rest2 => exact transAdd_nonempty d a0.value a1.value h

/-- Every value list of the translations map is non-empty. -/
lemma translationsOf_nonempty (sec : Sec) :
    ∀ kv ∈ translationsOf sec, kv.2 ≠ [] := by
  unfold translationsOf
  cases hs : sec.subLookup "תרגום" with
  | none => simp
  | some sub => exact transFold_nonempty _ [] (by simp)

/-! ## The claims -/

/-- C1, counterexample: on the page text of the spec's scenario 3 the
pipeline does run to exactly one Entry with one Definition, but the produced
gender is absent, not "male": the grammar dict is built from
`tem.arguments[1:]`, which drops the template's first argument ``מין=זכר``
(a named one -- the slice does not skip only positional arguments). -/
theorem c1_counterexample :
    Page.from_xml secsOfC1 plainParse xmlC1 = Except.ok pageC1 ∧
    pageC1.entries = [entryC1] ∧ entryC1.grammatical_info = some giC1 ∧
    giC1.gender ≠ some "male" :=
  ⟨by decide, rfl, rfl, by decide⟩

/-- C1, amended: the page yields exactly one Entry whose grammatical_info
has gender absent (``מין=זכר`` is the template's first argument and
`arguments[1:]` drops it) and part_of_speech "noun", and exactly one
Definition whose text is "ברכה.". -/
theorem c1_amended_assembly :
    Page.from_xml secsOfC1 plainParse xmlC1 = Except.ok pageC1 ∧
    pageC1.entries = [entryC1] ∧ entryC1.grammatical_info = some giC1 ∧
    giC1.gender = none ∧ giC1.part_of_speech = some "noun" ∧
    entryC1.definitions = [defC1] ∧ defC1.definition = "ברכה." :=
  ⟨by decide, rfl, rfl, rfl, rfl, rfl, rfl⟩

/-- C2, counterexample: the form-tag table also maps ``ז'`` to "male", which
is not in the claimed canonical tag set, so an emitted Entry whose
declensions field reads ``ז' דובים`` carries the tag "male" outside the
set. -/
theorem c2_counterexample :
    Entry.from_section plainParse secC2x = Except.ok entryC2x ∧
    entryC2x.grammatical_info = some giC2x ∧
    giC2x.declensions = some [("male", "דובים")] ∧
    ("male", "דובים") ∈ [("male", "דובים")] ∧
    ("male" : String) ∉ canonicalTagList :=
  ⟨by decide, rfl, rfl, by decide, by decide⟩

/-- C2, amended: every declension tag of an emitted Entry lies in the
claimed canonical set extended by "male" (plural, female, female plural,
male plural, construct, construct plural, dual, singular, possessive,
definite, female construct, unknown, male). -/
theorem c2_declension_tags_canonical
    (parse : String → WtpParsed) (sec : Sec) (e : Entry) (gi : GrammarInfo)
    (ds : List (String × String)) (tf : String × String)
    (h : Entry.from_section parse sec = .ok e)
    (hgi : e.grammatical_info = some gi)
    (hds : gi.declensions = some ds) (htf : tf ∈ ds) :
    tf.1 ∈ extendedTagList := by
  obtain ⟨-, g, d, ety, hg, -, -, rfl⟩ := from_section_ok h
  have hfield : (entryAssemble parse sec g d ety).grammatical_info = g := rfl
  rw [hfield] at hgi
  subst hgi
  obtain ⟨dd, hdd⟩ := gInfoOf_ok_some hg
  rw [from_dict_declensions hdd] at hds
  exact declensionsOf_tags hds tf htf

/-- Witness for C2 at a concrete section whose grammar template carries a
declensions argument. -/
theorem c2_witness :
    Entry.from_section plainParse secC2 = Except.ok entryC2 ∧
    entryC2.grammatical_info = some giC2 ∧
    giC2.declensions = some [("plural", "ספרים"), ("female", "ספרה")] ∧
    ("plural", "ספרים") ∈ [("plural", "ספרים"), ("female", "ספרה")] ∧
    ("plural" : String) ∈ extendedTagList :=
  ⟨by decide, rfl, rfl, by decide,
   c2_declension_tags_canonical plainParse secC2 entryC2 giC2
     [("plural", "ספרים"), ("female", "ספרה")] ("plural", "ספרים")
     (by decide) rfl rfl (by decide)⟩

/-- C3, counterexample: the wikilink pass of the Markup Normalizer is not
wrapped in try/except, so a library failure while replacing a single
wikilink node propagates out of remove_markup instead of being caught. -/
theorem c3_counterexample :
    remove_markup [WNode.wikilink "[[x]]" ⟨"x", none, false⟩ true] =
      Except.error () := by decide

/-- C3, amended: the bold, italic and tag passes are defensive, so
remove_markup succeeds on every node list without a failing wikilink node;
only a wikilink replacement failure propagates. -/
theorem c3_amended_defensive (ns : List WNode) (h : ns.all noFailWl = true) :
    ∃ s, remove_markup ns = Except.ok s := by
  obtain ⟨ms, hms⟩ := wikilinkPass_ok (noFailWl_italicPass (noFailWl_boldPass h))
  refine ⟨pyStrip (plainTextRender (tagPass ms)), ?_⟩
  rw [remove_markup]
  simp only [Bind.bind, Except.bind]
  rw [hms]
  rfl

/-- Witness for C3 at a node list whose only node is a failing bold span:
its replacement failure is caught and the raw markup survives. -/
theorem c3_witness :
    ([WNode.bold "'''x'''" "x" true].all noFailWl = true) ∧
    ∃ s, remove_markup [WNode.bold "'''x'''" "x" true] = Except.ok s :=
  ⟨by decide, c3_amended_defensive [WNode.bold "'''x'''" "x" true] (by decide)⟩

/-- C4, counterexample: `parse_form` differs from the claim's description on
three concrete inputs: the regex matches a table key that is a mere PREFIX
of the leading token ("רא ב": the leading token "רא" is in no table row, yet
the key "ר" matches and plural is emitted); a space with nothing after it
makes the split fail and fall to unknown although the leading token is a
table key ("ר' "); and a tab is whitespace but not the space character the
code tests for ("ר'\tספרים"). -/
theorem c4_counterexample :
    specParseForm "רא ב" = ("unknown", "רא ב") ∧
    parse_form "רא ב" = ("plural", "ב") ∧
    specParseForm "ר' " = ("plural", "") ∧
    parse_form "ר' " = ("unknown", "ר' ") ∧
    specParseForm "ר'\tספרים" = ("plural", "ספרים") ∧
    parse_form "ר'\tספרים" = ("unknown", "ר'\tספרים") := by decide

/-- C4, amended: for every string f, parse_form returns (table value of the
first form-tag key in table order that is a prefix of f, the part of f after
its first whitespace run) when f contains the space character and such a key
and second part exist; ("unknown", f) when f contains a space but no key
matches or no second part exists; otherwise ("construct", f without the
maqaf) when f ends in the maqaf, and ("unknown", f) otherwise. -/
theorem c4_amended_parse_form (f : String) :
    (∀ kv rest, f.data.contains ' ' = true → formTagMatch f = some kv →
      pySplitRest f = some rest → parse_form f = (kv.2, rest)) ∧
    (f.data.contains ' ' = true →
      (formTagMatch f = none ∨ pySplitRest f = none) →
      parse_form f = ("unknown", f)) ∧
    (f.data.contains ' ' = false → f.data.getLast? = some '־' →
      parse_form f = ("construct", String.mk f.data.dropLast)) ∧
    (f.data.contains ' ' = false → ¬ f.data.getLast? = some '־' →
      parse_form f = ("unknown", f)) := by
  refine ⟨?_, ?_, ?_, ?_⟩
  · intro kv rest h1 h2 h3
    have hm : ' ' ∈ f.data := by simpa using h1
    simp [parse_form, hm, h2, h3]
  · intro h1 h2
    have hm : ' ' ∈ f.data := by simpa using h1
    rcases h2 with h2 | h2
    · simp [parse_form, hm, h2]
    · cases hc : formTagMatch f with
      | none => simp [parse_form, hm, hc]
      | some kv => simp [parse_form, hm, h2, hc]
  · intro h1 h2
    have hm : ' ' ∉ f.data := by simpa using h1
    simp [parse_form, hm, h2]
  · intro h1 h2
    have hm : ' ' ∉ f.data := by simpa using h1
    simp [parse_form, hm, h2]

/-- Witness for C4 on the spec's own declension example. -/
theorem c4_witness : parse_form "ר' ספרים" = ("plural", "ספרים") :=
  (c4_amended_parse_form "ר' ספרים").1 ("ר'", "plural") "ספרים"
    (by decide) (by decide) (by decide)

/-- C6: in every emitted Entry the translations map has only non-empty value
lists, and on the spec's scenario-4 subsection the map groups the repeated
"en" key with its values in source order. -/
theorem c6_translations :
    (∀ (parse : String → WtpParsed) (sec : Sec) (e : Entry),
      Entry.from_section parse sec = .ok e → ∀ kv ∈ e.translations, kv.2 ≠ []) ∧
    (Entry.from_section plainParse secC6).map Entry.translations =
      Except.ok [("en", ["hello", "peace"]), ("fr", ["bonjour"])] := by
  constructor
  · intro parse sec e h kv hkv
    obtain ⟨-, g, d, ety, -, -, -, rfl⟩ := from_section_ok h
    exact translationsOf_nonempty sec kv hkv
  · decide

/-- Witness for C6 at the concrete translations section. -/
theorem c6_witness :
    Entry.from_section plainParse secC6 = Except.ok entryC6 ∧
    ("en", ["hello", "peace"]) ∈ entryC6.translations ∧
    (("en", ["hello", "peace"]) : String × List String).2 ≠ [] :=
  ⟨by decide, by decide,
   c6_translations.1 plainParse secC6 entryC6 (by decide)
     ("en", ["hello", "peace"]) (by decide)⟩

/-- C7: an emitted Entry's synonyms come only from the ``מילים נרדפות``
subsection (via parse_antonym, flattened) and its antonyms only from
``ניגודים``/``הפכים``; the dead double-binding does not leak the synonyms
list into antonyms. -/
theorem c7_synonyms_antonyms (parse : String → WtpParsed) (sec : Sec)
    (e : Entry) (h : Entry.from_section parse sec = .ok e) :
    e.synonyms = antonymListOf parse sec ["מילים נרדפות"] ∧
    e.antonyms = antonymListOf parse sec ["ניגודים", "הפכים"] := by
  obtain ⟨-, g, d, ety, -, -, -, rfl⟩ := from_section_ok h
  exact ⟨rfl, rfl⟩

/-- Witness for C7 at a section with different synonym and antonym lists. -/
theorem c7_witness :
    Entry.from_section plainParse secC7 = Except.ok entryC7 ∧
    entryC7.synonyms = antonymListOf plainParse secC7 ["מילים נרדפות"] ∧
    entryC7.antonyms = antonymListOf plainParse secC7 ["ניגודים", "הפכים"] ∧
    entryC7.synonyms ≠ entryC7.antonyms :=
  ⟨by decide,
   (c7_synonyms_antonyms plainParse secC7 entryC7 (by decide)).1,
   (c7_synonyms_antonyms plainParse secC7 entryC7 (by decide)).2,
   by decide⟩

/-- C8: a produced WikiLink's text is non-empty (a parsed wikilink's target,
its bracketed page title, is a non-empty string, which the hypothesis
records), with the fallback to the target when the display text is absent
or empty; `[[A|B]]` gives text "B", link "A" and `[[A]]` gives text "A",
link "A". -/
theorem c8_wikilink_text_nonempty (wl : WtpWikiLink) (h : wl.target ≠ "") :
    (WikiLink.from_wtp_wikilink wl).text ≠ "" ∧
    ((wl.text = none ∨ wl.text = some "") →
      (WikiLink.from_wtp_wikilink wl).text = wl.target) ∧
    WikiLink.from_wtp_wikilink ⟨"A", some "B", false⟩ = ⟨"B", "A"⟩ ∧
    WikiLink.from_wtp_wikilink ⟨"A", none, false⟩ = ⟨"A", "A"⟩ := by
  refine ⟨?_, ?_, by decide, by decide⟩
  · unfold WikiLink.from_wtp_wikilink wlDisplay
    cases ht : wl.text with
    | none => simpa using h
    | some s =>
      by_cases hs : s = ""
      · simpa [hs] using h
      · simp [hs]
  · intro hcase
    rcases hcase with hc | hc <;>
      simp [WikiLink.from_wtp_wikilink, wlDisplay, hc]

/-- Witness for C8 at the pipe-less link `[[A]]`. -/
theorem c8_witness :
    (WtpWikiLink.target ⟨"A", none, false⟩ ≠ "") ∧
    (WikiLink.from_wtp_wikilink ⟨"A", none, false⟩).text ≠ "" :=
  ⟨by decide, (c8_wikilink_text_nonempty ⟨"A", none, false⟩ (by decide)).1⟩

/-- C9: on a page element with well-formed metadata whose revision text is
the empty string (which the library sections into no level-2 sections, the
hypothesis `hs`), `Page.from_xml` succeeds and the entries list is empty. -/
theorem c9_empty_text_entryless
    (secsOf : String → List Sec) (parse : String → WtpParsed)
    (t p rs sh : String) (n m : Int)
    (hs : secsOf "" = []) (hp : pyInt p = .ok n) (hr : pyInt rs = .ok m) :
    Page.from_xml secsOf parse
      { title := some t, pid := some p,
        revision := some { rid := some rs, sha1 := some sh, text := some "" } } =
      Except.ok { pid := n, revision_id := m, sha1 := sh, entries := [], title := t } := by
  rw [Page.from_xml]
  simp only [Bind.bind, Except.bind, Pure.pure, Except.pure, hs, hp, hr]
  rfl

/-- Witness for C9 at concrete metadata. -/
theorem c9_witness :
    ((fun _ => ([] : List Sec)) "" = ([] : List Sec)) ∧
    pyInt "1" = Except.ok 1 ∧ pyInt "2" = Except.ok 2 ∧
    Page.from_xml (fun _ => []) plainParse
      { title := some "שלום", pid := some "1",
        revision := some { rid := some "2", sha1 := some "da39", text := some "" } } =
      Except.ok { pid := 1, revision_id := 2, sha1 := "da39", entries := [],
                  title := "שלום" } :=
  ⟨rfl, by decide, by decide,
   c9_empty_text_entryless (fun _ => []) plainParse "שלום" "1" "2" "da39" 1 2
     rfl (by decide) (by decide)⟩

/-- C10: `parse_form` is total by construction; in particular, when the
input contains a space but `split(maxsplit=1)` has no second element, the
IndexError is caught and ("unknown", f) is returned. -/
theorem c10_parse_form_catches_missing_rest (f : String)
    (h1 : f.data.contains ' ' = true) (h2 : pySplitRest f = none) :
    parse_form f = ("unknown", f) := by
  have hmem : ' ' ∈ f.data := by simpa using h1
  cases hc : formTagMatch f with
  | none => simp [parse_form, hmem, hc]
  | some kv => simp [parse_form, hmem, h2, hc]

/-- Witness for C10 at a tag followed by a space and nothing else. -/
theorem c10_witness :
    ("ר' ".data.contains ' ' = true) ∧ pySplitRest "ר' " = none ∧
    parse_form "ר' " = ("unknown", "ר' ") :=
  ⟨by decide, by decide,
   c10_parse_form_catches_missing_rest "ר' " (by decide) (by decide)⟩

end HeWikt
